import Mathlib

/-!
Verification of the document-to-structured-data extraction and classification
pipeline of the qld-youth-justice-tracker repository.

The embedding below translates the relevant Python source into Lean:

* `src/scrapers/treasury_budget_scraper.py` — keyword category classifier
  (`_categorize_program`), table-row amount extraction
  (`_extract_allocation_from_row`), fiscal aggregation
  (`calculate_detention_vs_community`), deduplicating persistence
  (`save_to_database`).
* `src/scrapers/budget_scraper.py` — row amount extraction (`_extract_amount`),
  binary row categorisation (`parse_youth_justice_allocations`),
  non-deduplicating persistence (`save_to_database`, SQLite and Supabase legs).
* `src/scrapers/parliament_qon_scraper.py` — dollar-amount statistic scan
  (`_extract_statistics`).
* `src/analysis/cost_analysis.py` — spending split with hard-coded fallback
  percentages (`calculate_spending_split`).

Conventions of the embedding:

* Python `float` arithmetic is modelled over `ℚ` with exact decimal literals;
  every amount that the claims mention is an exact decimal, so no rounding
  behaviour of IEEE doubles is load-bearing for any claim.
* Python's `str.lower()` is modelled by ASCII lowercasing (`Char.toLower`);
  all keywords and all concrete inputs used below are ASCII.
* The two regular expressions that the scrapers use on amounts are embedded as
  explicit maximal-munch scanners over `List Char`; both patterns are
  backtracking-free on their alphabet (the optional parts begin with characters
  disjoint from the preceding character classes), so maximal munch is exact.
* A Python exception escaping a function is modelled as `Except.error ()`;
  a `return None` is `Option.none`.
* Database sessions follow the source configuration
  `sessionmaker(autocommit=False, autoflush=False)`: queries issued during a
  save loop see only rows committed before the call, staged `add`s become
  durable at the single `commit()`, and `rollback()` discards all staged rows.
-/

/-! ## Python string primitives -/

/-- Ordered equality of a needle with the start of a haystack, on char lists. -/
def startsWithL : List Char → List Char → Bool
  | [], _ => true
  | _ :: _, [] => false
  | a :: as, b :: bs => a = b && startsWithL as bs

/-- Python's substring test `needle in hay`, on char lists. -/
def containsL (n : List Char) : List Char → Bool
  | [] => n.isEmpty
  | c :: rest => startsWithL n (c :: rest) || containsL n rest

/-- Python's `needle in hay` on strings. -/
def pySubstr (needle hay : String) : Bool :=
  containsL needle.toList hay.toList

/-- Python's `str.lower()` (ASCII; source keywords and inputs are ASCII). -/
def pyLower (s : String) : String :=
  String.mk (s.toList.map Char.toLower)

/-! ## Category classifier

`TreasuryBudgetScraper._categorize_program` (treasury_budget_scraper.py,
lines 258-273) counts how many keywords of each list occur in the lowercased
text, then applies the decision cascade.  Note the final branch of the source:
`return 'community'`, not `'unknown'`. -/

/-- The `self.detention_keywords` list of `TreasuryBudgetScraper.__init__`. -/
def detention_keywords : List String :=
  ["detention", "cleveland", "west moreton", "secure facility",
   "custody", "remand", "secure accommodation"]

/-- The `self.community_keywords` list of `TreasuryBudgetScraper.__init__`. -/
def community_keywords : List String :=
  ["community", "diversion", "restorative", "supervision",
   "bail support", "family support", "early intervention",
   "prevention", "rehabilitation", "reintegration"]

/-- Python's `sum(1 for keyword in kws if keyword in text_lower)`. -/
def keywordScore (kws : List String) (textLower : String) : Nat :=
  (kws.filter (fun k => pySubstr k textLower)).length

/-- Detention keyword score of `_categorize_program`. -/
def detentionScore (text : String) : Nat :=
  keywordScore detention_keywords (pyLower text)

/-- Community keyword score of `_categorize_program`. -/
def communityScore (text : String) : Nat :=
  keywordScore community_keywords (pyLower text)

/-- The facility-name fallback test of `_categorize_program`:
`any(facility in text_lower for facility in ['cleveland', 'west moreton'])`. -/
def mentionsFacility (text : String) : Bool :=
  pySubstr "cleveland" (pyLower text) || pySubstr "west moreton" (pyLower text)

/-- `TreasuryBudgetScraper._categorize_program`, translated branch by branch. -/
def categorize_program (text : String) : String :=
  if communityScore text < detentionScore text then "detention"
  else if 0 < communityScore text then "community"
  else if mentionsFacility text then "detention"
  else "community"

/-- The inline binary categorisation of
`BudgetScraper.parse_youth_justice_allocations` (budget_scraper.py,
lines 129-131): `'detention' if any(word in str(row).lower() for word in
['detention', 'cleveland', 'west moreton']) else 'community'`. -/
def budgetRowCategory (rowText : String) : String :=
  if (["detention", "cleveland", "west moreton"].any
        fun w => pySubstr w (pyLower rowText)) then "detention"
  else "community"

/-! ## Amount scanners

Both budget scrapers locate amounts with the regular expression
`\$?([\d,]+(?:\.\d+)?)\s*(?:million|m|thousand|k)?`; the parliament QON
scraper's dollar scan uses
`\$\s*([\d,]+(?:\.\d+)?)\s*(?:(million|billion|thousand))?`.
The scanners below follow Python `re` semantics on these patterns: try a match
at each index, on success emit the first capture group and resume after the
match; `[\d,]+`, `\.\d+` and `\s*` are maximal munch, alternations are tried
left to right. -/

/-- Character class `[\d,]`. -/
def isNumC (c : Char) : Bool := c.isDigit || c = ','

/-- Match `([\d,]+(?:\.\d+)?)` at the head of the input, returning the capture
and the rest.  The fractional part is consumed only when the dot is followed by
at least one digit, exactly as `(?:\.\d+)?` backtracks on a bare dot. -/
def matchNum (cs : List Char) : Option (List Char × List Char) :=
  let ip := cs.takeWhile isNumC
  if ip.isEmpty then none
  else
    match cs.dropWhile isNumC with
    | '.' :: r2 =>
        let fr := r2.takeWhile Char.isDigit
        if fr.isEmpty then some (ip, '.' :: r2)
        else some (ip ++ '.' :: fr, r2.dropWhile Char.isDigit)
    | r1 => some (ip, r1)

/-- Magnitude alternative of `(?:million|m|thousand|k)?`. -/
inductive MagA where
  | million
  | m
  | thousand
  | k
  | absent
deriving DecidableEq

/-- Consume the optional magnitude of the budget-scraper pattern; alternatives
are tried in the source order `million`, `m`, `thousand`, `k`. -/
def munchMagA (cs : List Char) : MagA × List Char :=
  if startsWithL "million".toList cs then (MagA.million, cs.drop 7)
  else
    match cs with
    | 'm' :: r => (MagA.m, r)
    | _ =>
      if startsWithL "thousand".toList cs then (MagA.thousand, cs.drop 8)
      else
        match cs with
        | 'k' :: r => (MagA.k, r)
        | _ => (MagA.absent, cs)

/-- Try the whole pattern `\$?([\d,]+(?:\.\d+)?)\s*(?:million|m|thousand|k)?`
at the head of the input.  Returns the capture group, the magnitude that the
match consumed, and the rest of the input after the match. -/
def matchTokenA (cs : List Char) : Option (List Char × MagA × List Char) :=
  let body := fun cs' =>
    (matchNum cs').map fun gr =>
      let r' := gr.2.dropWhile Char.isWhitespace
      let (mag, r2) := munchMagA r'
      (gr.1, mag, r2)
  match cs with
  | '$' :: rest => body rest
  | _ => body cs

/-- Fueled `re.findall` scan for the budget-scraper pattern.  One unit of fuel
is spent per scan position; each successful match consumes at least one
character, so fuel equal to the input length always suffices. -/
def scanA : Nat → List Char → List (List Char × MagA)
  | 0, _ => []
  | _ + 1, [] => []
  | fuel + 1, c :: rest =>
      match matchTokenA (c :: rest) with
      | some (g, mag, r) => (g, mag) :: scanA fuel r
      | none => scanA fuel rest

/-- All captures of the budget-scraper amount pattern in a string, with the
magnitude word that immediately follows each token. -/
def tokensA (s : String) : List (List Char × MagA) :=
  scanA s.toList.length s.toList

/-- Python `re.search` for the budget-scraper pattern: the first capture. -/
def searchA : List Char → Option (List Char)
  | [] => none
  | c :: rest =>
      match matchTokenA (c :: rest) with
      | some (g, _, _) => some g
      | none => searchA rest

/-- Magnitude alternative of `(?:(million|billion|thousand))?`. -/
inductive MagB where
  | million
  | billion
  | thousand
  | absent
deriving DecidableEq

/-- Consume the optional magnitude of the statistic-scan pattern; only the
three full words are alternatives. -/
def munchMagB (cs : List Char) : MagB × List Char :=
  if startsWithL "million".toList cs then (MagB.million, cs.drop 7)
  else if startsWithL "billion".toList cs then (MagB.billion, cs.drop 7)
  else if startsWithL "thousand".toList cs then (MagB.thousand, cs.drop 8)
  else (MagB.absent, cs)

/-- Try `\$\s*([\d,]+(?:\.\d+)?)\s*(?:(million|billion|thousand))?` at the
head of the input. -/
def matchTokenB (cs : List Char) : Option (List Char × MagB × List Char) :=
  match cs with
  | '$' :: rest =>
      (matchNum (rest.dropWhile Char.isWhitespace)).map fun gr =>
        let r' := gr.2.dropWhile Char.isWhitespace
        let (mag, r2) := munchMagB r'
        (gr.1, mag, r2)
  | _ => none

/-- Fueled `re.finditer` scan for the statistic-scan dollar pattern. -/
def scanB : Nat → List Char → List (List Char × MagB)
  | 0, _ => []
  | _ + 1, [] => []
  | fuel + 1, c :: rest =>
      match matchTokenB (c :: rest) with
      | some (g, mag, r) => (g, mag) :: scanB fuel r
      | none => scanB fuel rest

/-- All captures of the statistic-scan dollar pattern in a string. -/
def tokensB (s : String) : List (List Char × MagB) :=
  scanB s.toList.length s.toList

/-! ## Mantissa parsing

Python parses a capture with `float(token.replace(',', ''))`.  On the captures
of the patterns above the comma-stripped text is `digits ('.' digits)?` or
`'.' digits` or empty; `float` of the empty string raises `ValueError`.
`mantissaParts` returns the digits as one natural number together with the
number of fractional digits, and `none` for the raising case. -/

/-- Decimal value of a digit list. -/
def digitsToNat (ds : List Char) : Nat :=
  ds.foldl (fun n c => 10 * n + (c.toNat - 48)) 0

/-- Comma-stripped parse of a captured token: `some (digits, fracLen)` with
value `digits / 10 ^ fracLen`, or `none` when `float` would raise (the capture
contained only commas). -/
def mantissaParts (g : List Char) : Option (Nat × Nat) :=
  let d := g.filter (fun c => c ≠ ',')
  if d.isEmpty then none
  else
    let ip := d.takeWhile Char.isDigit
    match d.dropWhile Char.isDigit with
    | [] => some (digitsToNat ip, 0)
    | '.' :: fr => some (digitsToNat (ip ++ fr), fr.length)
    | _ => none

/-- Rational value of a parsed mantissa. -/
def ratOfParts (p : Nat × Nat) : ℚ :=
  (p.1 : ℚ) / 10 ^ p.2

/-- Parse a list of captures, failing like the Python loop as soon as one
capture fails to parse. -/
def mantissaPartsAll : List (List Char) → Option (List (Nat × Nat))
  | [] => some []
  | g :: gs =>
      match mantissaParts g, mantissaPartsAll gs with
      | some p, some ps => some (p :: ps)
      | _, _ => none

/-! ## Magnitude multipliers -/

/-- Fragment-level multiplier choice shared by both budget scrapers. -/
inductive FragMult where
  | million
  | thousand
  | one
deriving DecidableEq

/-- Value of a fragment-level multiplier. -/
def fragMultVal : FragMult → ℚ
  | FragMult.million => 1000000
  | FragMult.thousand => 1000
  | FragMult.one => 1

/-- Multiplier test of `_extract_allocation_from_row` (treasury, lines
207-211): `'million' in row_text.lower() or ' m' in row_text.lower()`, else
`'thousand' in ... or ' k' in ...` — substring tests on the whole row text. -/
def treasuryFragMult (rowText : String) : FragMult :=
  if pySubstr "million" (pyLower rowText) || pySubstr " m" (pyLower rowText) then
    FragMult.million
  else if pySubstr "thousand" (pyLower rowText) || pySubstr " k" (pyLower rowText) then
    FragMult.thousand
  else FragMult.one

/-- Multiplier test of `BudgetScraper._extract_amount` (lines 111-115):
`'million' in str(value).lower() or 'm' in str(value).lower()`, else
`'thousand' in ... or 'k' in ...` — substring tests on the whole cell value. -/
def budgetFragMult (value : String) : FragMult :=
  if pySubstr "million" (pyLower value) || pySubstr "m" (pyLower value) then
    FragMult.million
  else if pySubstr "thousand" (pyLower value) || pySubstr "k" (pyLower value) then
    FragMult.thousand
  else FragMult.one

/-- Per-token magnitude value as the spec's Amount Normalizer describes it
(million, m map to 10^6; thousand, k map to 10^3; absent maps to 1). -/
def magMultA : MagA → ℚ
  | MagA.million => 1000000
  | MagA.m => 1000000
  | MagA.thousand => 1000
  | MagA.k => 1000
  | MagA.absent => 1

/-- Per-token magnitude value of the statistic scan (parliament_qon_scraper.py,
lines 241-248). -/
def magMultB : MagB → ℚ
  | MagB.million => 1000000
  | MagB.billion => 1000000000
  | MagB.thousand => 1000
  | MagB.absent => 1

/-! ## Amount normalizers -/

/-- Amount computation of `TreasuryBudgetScraper._extract_allocation_from_row`
(lines 194-211).  `re.findall` collects the captures; an empty capture list
returns `None`; `max(amounts, key=lambda x: float(x.replace(',', '')))`
applies `float` to every capture (raising `ValueError` if any capture is
commas only) and selects the first capture with the maximal parsed value,
which is then re-parsed — so the selected amount is exactly the maximum of the
parsed mantissas, computed directly here — and finally one fragment-level
multiplier is applied. -/
def extract_allocation_amount (rowText : String) : Except Unit (Option ℚ) :=
  match mantissaPartsAll ((tokensA rowText).map Prod.fst) with
  | none =>
      match (tokensA rowText).map Prod.fst with
      | [] => Except.ok none
      | _ :: _ => Except.error ()
  | some [] => Except.ok none
  | some (p :: ps) =>
      Except.ok (some (((ps.map ratOfParts).foldl max (ratOfParts p)) *
        fragMultVal (treasuryFragMult rowText)))

/-- `BudgetScraper._extract_amount` (lines 101-119) over the row's cell values
in order: `re.search` on each value, first value with a match wins; `float` of
a commas-only capture raises; otherwise the parsed mantissa is scaled by the
value-level substring multiplier.  No match in any value returns `None`. -/
def extract_amount : List String → Except Unit (Option ℚ)
  | [] => Except.ok none
  | v :: rest =>
      match searchA v.toList with
      | none => extract_amount rest
      | some g =>
          match mantissaParts g with
          | none => Except.error ()
          | some p =>
              Except.ok (some (ratOfParts p * fragMultVal (budgetFragMult v)))

/-- Value loop of the dollar-amount scan of
`ParliamentQoNScraper._extract_statistics` (lines 236-259): each match's
capture is parsed and scaled by the full-word magnitude that follows it; a
commas-only capture raises out of the loop. -/
def statAmountLoop : List (List Char × MagB) → Except Unit (List ℚ)
  | [] => Except.ok []
  | (g, mag) :: rest =>
      match mantissaParts g with
      | none => Except.error ()
      | some p =>
          match statAmountLoop rest with
          | Except.error e => Except.error e
          | Except.ok vs => Except.ok (ratOfParts p * magMultB mag :: vs)

/-- All dollar-amount statistic values that `_extract_statistics` collects. -/
def statAmountValues (s : String) : Except Unit (List ℚ) :=
  statAmountLoop (tokensB s)

/-- Modelled from the spec (§4.2): the normalized value of one token is its
mantissa times the magnitude immediately following that token; this list pairs
each capture with that per-token value.  This is the spec-side reading that
the source's fragment-level multiplier is compared against. -/
def specNormalizedLoop : List (List Char × MagA) → Option (List ℚ)
  | [] => some []
  | (g, mag) :: rest =>
      match mantissaParts g, specNormalizedLoop rest with
      | some p, some vs => some (ratOfParts p * magMultA mag :: vs)
      | _, _ => none

/-- Modelled from the spec (§4.2): per-token normalized values of a fragment. -/
def specNormalizedValues (s : String) : Option (List ℚ) :=
  specNormalizedLoop (tokensA s)

/-- Modelled from the spec (§4.2 tie-break): the largest per-token normalized
value of a fragment, `none` when no token parses. -/
def specLargestNormalized (s : String) : Option ℚ :=
  match specNormalizedValues s with
  | some (v :: vs) => some (vs.foldl max v)
  | _ => none

/-! ## Fiscal aggregator -/

/-- Category and amount of one allocation record, the two fields that
`calculate_detention_vs_community` and `calculate_spending_split` read. -/
structure AllocEntry where
  category : String
  amount : ℚ
deriving DecidableEq

/-- Sum of amounts of the detention-category records. -/
def detentionTotal (allocations : List AllocEntry) : ℚ :=
  ((allocations.filter fun a => a.category = "detention").map AllocEntry.amount).sum

/-- Sum of amounts of the community-category records. -/
def communityTotal (allocations : List AllocEntry) : ℚ :=
  ((allocations.filter fun a => a.category = "community").map AllocEntry.amount).sum

/-- Result record of `calculate_detention_vs_community`. -/
structure BudgetSplit where
  detention_total : ℚ
  community_total : ℚ
  total_budget : ℚ
  detention_percentage : ℚ
  community_percentage : ℚ
  allocation_count : Nat
deriving DecidableEq

/-- `TreasuryBudgetScraper.calculate_detention_vs_community` (lines 307-327). -/
def calculate_detention_vs_community (allocations : List AllocEntry) : BudgetSplit :=
  { detention_total := detentionTotal allocations
    community_total := communityTotal allocations
    total_budget := detentionTotal allocations + communityTotal allocations
    detention_percentage :=
      if 0 < detentionTotal allocations + communityTotal allocations then
        detentionTotal allocations /
          (detentionTotal allocations + communityTotal allocations) * 100
      else 0
    community_percentage :=
      if 0 < detentionTotal allocations + communityTotal allocations then
        communityTotal allocations /
          (detentionTotal allocations + communityTotal allocations) * 100
      else 0
    allocation_count := allocations.length }

/-- Result record of `CostAnalyzer.calculate_spending_split`. -/
structure SpendingSplit where
  detention_total : ℚ
  community_total : ℚ
  total_budget : ℚ
  detention_percentage : ℚ
  community_percentage : ℚ
deriving DecidableEq

/-- `CostAnalyzer.calculate_spending_split` (cost_analysis.py, lines 15-47),
with the store's 2024-25 allocation query supplied as the argument.  On a zero
total the source hard-codes the known percentages 90.6 and 9.4. -/
def calculate_spending_split (allocations : List AllocEntry) : SpendingSplit :=
  { detention_total := detentionTotal allocations
    community_total := communityTotal allocations
    total_budget := detentionTotal allocations + communityTotal allocations
    detention_percentage :=
      if 0 < detentionTotal allocations + communityTotal allocations then
        detentionTotal allocations /
          (detentionTotal allocations + communityTotal allocations) * 100
      else 90.6
    community_percentage :=
      if 0 < detentionTotal allocations + communityTotal allocations then
        communityTotal allocations /
          (detentionTotal allocations + communityTotal allocations) * 100
      else 9.4 }

/-- The constant percentage pair of the treasury aggregator's zero-total
branch (lines 316-318). -/
def treasuryZeroTotalPercentages : ℚ × ℚ := (0, 0)

/-- The constant percentage pair of the cost analyzer's zero-total branch
(lines 33-35). -/
def knownSplitPercentages : ℚ × ℚ := (90.6, 9.4)

/-! ## Deduplicating writer and persistence

The SQLAlchemy session is created with `autocommit=False, autoflush=False`
(database/__init__.py), so during a save loop every `filter_by` query sees
only the rows that were durable when the call began, staged `add`s become
durable at the single `commit()`, and any exception leads to `rollback()`,
which discards every staged row. -/

/-- Candidate allocation dictionary as the scrapers build it; the fields that
`_extract_allocation_from_row` does not set and `scrape_and_save` may add
later are optional, matching the writers' `alloc.get(key, default)` reads. -/
structure AllocDict where
  fiscal_year : String
  program : String
  category : String
  amount : ℚ
  department : Option String
  description : Option String
  source_url : Option String
  source_document : Option String
deriving DecidableEq

/-- Persisted `budget_allocations` row (database/models.py). -/
structure BudgetAllocationRow where
  fiscal_year : String
  department : String
  program : String
  category : String
  amount : ℚ
  description : String
  source_url : String
  source_document : String
deriving DecidableEq

/-- Row built by the treasury `save_to_database` insert (lines 411-420), with
its `alloc.get` defaults. -/
def treasuryRowOf (a : AllocDict) : BudgetAllocationRow :=
  { fiscal_year := a.fiscal_year
    department := a.department.getD "Unknown"
    program := a.program
    category := a.category
    amount := a.amount
    description := a.description.getD ""
    source_url := a.source_url.getD ""
    source_document := a.source_document.getD "" }

/-- Row built by `BudgetAllocation(**alloc)` in the budget scraper's
`save_to_database` (line 169). -/
def budgetRowOf (a : AllocDict) : BudgetAllocationRow :=
  { fiscal_year := a.fiscal_year
    department := a.department.getD ""
    program := a.program
    category := a.category
    amount := a.amount
    description := a.description.getD ""
    source_url := a.source_url.getD ""
    source_document := a.source_document.getD "" }

/-- Natural-key test of the duplicate query
`filter_by(fiscal_year=..., program=..., amount=...)` (lines 404-408). -/
def sameKey (r : BudgetAllocationRow) (a : AllocDict) : Bool :=
  decide (r.fiscal_year = a.fiscal_year) && decide (r.program = a.program) &&
    decide (r.amount = a.amount)

/-- Does the durable store already hold a row with the candidate's key? -/
def hasKey (store : List BudgetAllocationRow) (a : AllocDict) : Bool :=
  store.any fun r => sameKey r a

/-- Rows staged by the treasury `save_to_database` loop; with
`autoflush=False` every duplicate query sees only `store`. -/
def treasuryStage (store : List BudgetAllocationRow) :
    List AllocDict → List BudgetAllocationRow
  | [] => []
  | a :: rest =>
      (if hasKey store a then [] else [treasuryRowOf a]) ++ treasuryStage store rest

/-- `TreasuryBudgetScraper.save_to_database` (lines 397-430) on the success
path: stage the new-key rows, then one commit appends them to the store. -/
def treasury_save_to_database (store : List BudgetAllocationRow)
    (allocs : List AllocDict) : List BudgetAllocationRow :=
  store ++ treasuryStage store allocs

/-- The treasury staging loop under a fault model: `queryRaises i` says the
duplicate query of the i-th candidate raises.  A raise aborts the loop and no
staged rows survive (`none`). -/
def treasuryStageFaulty (store : List BudgetAllocationRow)
    (queryRaises : Nat → Bool) :
    List AllocDict → Nat → Option (List BudgetAllocationRow)
  | [], _ => some []
  | a :: rest, i =>
      if queryRaises i then none
      else
        match treasuryStageFaulty store queryRaises rest (i + 1) with
        | none => none
        | some tail =>
            some ((if hasKey store a then [] else [treasuryRowOf a]) ++ tail)

/-- `TreasuryBudgetScraper.save_to_database` under the fault model: a raising
query or a raising commit reaches the `except` branch, whose `rollback()`
leaves the store unchanged; otherwise the single commit appends every staged
row. -/
def treasury_save_faulty (store : List BudgetAllocationRow)
    (allocs : List AllocDict) (queryRaises : Nat → Bool)
    (commitRaises : Bool) : List BudgetAllocationRow :=
  match treasuryStageFaulty store queryRaises allocs 0 with
  | none => store
  | some staged => if commitRaises then store else store ++ staged

/-- `BudgetScraper.save_to_database` (lines 162-187), SQLite leg, success
path: every candidate is added with no duplicate check, then one commit. -/
def budget_save_to_database (store : List BudgetAllocationRow)
    (allocs : List AllocDict) : List BudgetAllocationRow :=
  store ++ allocs.map budgetRowOf

/-- The SQLite leg of the budget writer under the fault model: a raising
`add` or commit reaches `rollback()` and the store is unchanged. -/
def budget_save_faulty (store : List BudgetAllocationRow)
    (allocs : List AllocDict) (addRaises : Nat → Bool)
    (commitRaises : Bool) : List BudgetAllocationRow :=
  if (List.range allocs.length).any addRaises || commitRaises then store
  else store ++ allocs.map budgetRowOf

/-- The Supabase leg of `BudgetScraper.save_to_database` (lines 181-187):
`insert_budget_allocation` is called once per candidate and each call is
immediately durable; the surrounding `try` catches the first raising insert,
so the loop stops there and the rows already inserted remain. -/
def supabase_save (insRaises : Nat → Bool) :
    List AllocDict → List AllocDict → Nat → List AllocDict
  | store, [], _ => store
  | store, a :: rest, i =>
      if insRaises i then store
      else supabase_save insRaises (store ++ [a]) rest (i + 1)

/-! ## Sample records used by concrete persistence statements -/

/-- Sample community candidate. -/
def sampleAllocA : AllocDict :=
  { fiscal_year := "2024-25"
    program := "Youth Bail Support Service"
    category := "community"
    amount := 100
    department := some "Department of Youth Justice"
    description := some "bail support row"
    source_url := none
    source_document := none }

/-- Sample detention candidate with a different natural key. -/
def sampleAllocB : AllocDict :=
  { fiscal_year := "2024-25"
    program := "Cleveland Youth Detention Centre"
    category := "detention"
    amount := 250
    department := some "Department of Youth Justice"
    description := some "detention row"
    source_url := none
    source_document := none }

/-! ## C1 — default category in the absence of any signal -/

/-- C1 (amended): with no community keyword, a detention score not above the
community score and no facility mention, `_categorize_program` returns
`community` — not `unknown`; the budget scraper's binary row categorisation
likewise returns `community` when none of its three detention words occur. -/
theorem classifier_no_signal_yields_community :
    (∀ text : String, detentionScore text ≤ communityScore text →
        communityScore text = 0 → mentionsFacility text = false →
        categorize_program text = "community") ∧
    (∀ rowText : String,
        (["detention", "cleveland", "west moreton"].all
            fun w => !pySubstr w (pyLower rowText)) = true →
        budgetRowCategory rowText = "community") := by
  constructor
  · intro text h1 h2 h3
    have hd0 : detentionScore text = 0 := by omega
    simp [categorize_program, hd0, h2, h3]
  · intro rowText h
    simp only [List.all_eq_true, Bool.not_eq_true'] at h
    have hd := h "detention" (by simp)
    have hc := h "cleveland" (by simp)
    have hw := h "west moreton" (by simp)
    simp [budgetRowCategory, hd, hc, hw]

/-- C1 witness: a concrete signal-free text resolves to `community` through
the theorem above. -/
theorem classifier_no_signal_witness :
    categorize_program "hello" = "community" ∧
    budgetRowCategory "hello" = "community" :=
  ⟨classifier_no_signal_yields_community.1 "hello" (by decide) (by decide)
      (by decide),
   classifier_no_signal_yields_community.2 "hello" (by decide)⟩

/-- C1 counterexample: the empty text has no keyword hit of either list and
mentions no facility, yet the classifier returns `community`, so the claimed
`unknown` default is false on the code. -/
theorem classifier_empty_text_counterexample :
    detentionScore "" ≤ communityScore "" ∧ communityScore "" = 0 ∧
    mentionsFacility "" = false ∧ categorize_program "" = "community" ∧
    ("community" : String) ≠ "unknown" := by decide

/-! ## C4 — tie-break and determinism -/

/-- C4: equal nonzero keyword counts resolve to `community` (rule (b) wins the
tie), and the classifier is a pure function of its input text. -/
theorem classifier_tie_break_community :
    (∀ text : String, detentionScore text = communityScore text →
        0 < communityScore text → categorize_program text = "community") ∧
    (∀ t1 t2 : String, t1 = t2 →
        categorize_program t1 = categorize_program t2) := by
  constructor
  · intro text h1 h2
    have hlt : ¬ communityScore text < detentionScore text := by omega
    simp [categorize_program, hlt, h2]
  · intro t1 t2 h
    rw [h]

/-- C4 witness: `custody diversion` scores one detention and one community
keyword and classifies as `community`. -/
theorem classifier_tie_break_witness :
    detentionScore "custody diversion" = communityScore "custody diversion" ∧
    0 < communityScore "custody diversion" ∧
    categorize_program "custody diversion" = "community" :=
  ⟨by decide, by decide,
   classifier_tie_break_community.1 "custody diversion" (by decide) (by decide)⟩

/-! ## C6 — fiscal aggregation -/

/-- C6: the aggregator sums detention and community amounts separately, rows
of any other category (here `unknown`) change neither total nor percentage but
do count into `allocation_count`; on the spec's three-row example the totals
are 100/50/150, the percentages are 200/3 and 100/3 (within 0.1 of 66.7 and
33.3), and the count is 3. -/
theorem aggregator_example_and_unknown_exclusion :
    ((calculate_detention_vs_community
        [⟨"detention", 100⟩, ⟨"community", 50⟩, ⟨"unknown", 1000⟩]).detention_total
        = 100 ∧
      (calculate_detention_vs_community
        [⟨"detention", 100⟩, ⟨"community", 50⟩, ⟨"unknown", 1000⟩]).community_total
        = 50 ∧
      (calculate_detention_vs_community
        [⟨"detention", 100⟩, ⟨"community", 50⟩, ⟨"unknown", 1000⟩]).total_budget
        = 150 ∧
      (calculate_detention_vs_community
        [⟨"detention", 100⟩, ⟨"community", 50⟩, ⟨"unknown", 1000⟩]).detention_percentage
        = 200 / 3 ∧
      |(calculate_detention_vs_community
        [⟨"detention", 100⟩, ⟨"community", 50⟩, ⟨"unknown", 1000⟩]).detention_percentage
        - 66.7| < 1 / 10 ∧
      (calculate_detention_vs_community
        [⟨"detention", 100⟩, ⟨"community", 50⟩, ⟨"unknown", 1000⟩]).community_percentage
        = 100 / 3 ∧
      |(calculate_detention_vs_community
        [⟨"detention", 100⟩, ⟨"community", 50⟩, ⟨"unknown", 1000⟩]).community_percentage
        - 33.3| < 1 / 10 ∧
      (calculate_detention_vs_community
        [⟨"detention", 100⟩, ⟨"community", 50⟩, ⟨"unknown", 1000⟩]).allocation_count
        = 3) ∧
    (∀ (a : AllocEntry) (l : List AllocEntry),
        a.category ≠ "detention" → a.category ≠ "community" →
        (calculate_detention_vs_community (a :: l)).detention_total =
          (calculate_detention_vs_community l).detention_total ∧
        (calculate_detention_vs_community (a :: l)).community_total =
          (calculate_detention_vs_community l).community_total ∧
        (calculate_detention_vs_community (a :: l)).total_budget =
          (calculate_detention_vs_community l).total_budget ∧
        (calculate_detention_vs_community (a :: l)).detention_percentage =
          (calculate_detention_vs_community l).detention_percentage ∧
        (calculate_detention_vs_community (a :: l)).community_percentage =
          (calculate_detention_vs_community l).community_percentage ∧
        (calculate_detention_vs_community (a :: l)).allocation_count =
          (calculate_detention_vs_community l).allocation_count + 1) := by
  constructor
  · have hd : detentionTotal
        [⟨"detention", 100⟩, ⟨"community", 50⟩, ⟨"unknown", 1000⟩] = 100 := by
      simp +decide [detentionTotal, List.filter]
    have hc : communityTotal
        [⟨"detention", 100⟩, ⟨"community", 50⟩, ⟨"unknown", 1000⟩] = 50 := by
      simp +decide [communityTotal, List.filter]
    refine ⟨?_, ?_, ?_, ?_, ?_, ?_, ?_, ?_⟩ <;>
      norm_num [calculate_detention_vs_community, hd, hc, abs_lt]
  · intro a l h1 h2
    have hd : detentionTotal (a :: l) = detentionTotal l := by
      simp [detentionTotal, List.filter_cons, h1]
    have hc : communityTotal (a :: l) = communityTotal l := by
      simp [communityTotal, List.filter_cons, h2]
    simp [calculate_detention_vs_community, hd, hc]

/-- C6 witness: a single `unknown` row leaves every total and percentage equal
to the empty aggregate and raises the count by one. -/
theorem aggregator_unknown_exclusion_witness :
    (calculate_detention_vs_community [⟨"unknown", 5⟩]).total_budget =
      (calculate_detention_vs_community []).total_budget ∧
    (calculate_detention_vs_community [⟨"unknown", 5⟩]).allocation_count =
      (calculate_detention_vs_community []).allocation_count + 1 := by
  have h := aggregator_example_and_unknown_exclusion.2 ⟨"unknown", 5⟩ []
    (by decide) (by decide)
  exact ⟨h.2.2.1, h.2.2.2.2.2⟩

/-! ## C7 — zero-total fallback -/

/-- C7: on a zero detention-plus-community total both aggregators return their
fixed fallback percentage pair — 0/0 for the treasury aggregator, 90.6/9.4 for
the cost analyzer — and never divide by the zero total. -/
theorem zero_total_fallback_constants :
    (∀ l : List AllocEntry,
        (calculate_detention_vs_community l).total_budget = 0 →
        ((calculate_detention_vs_community l).detention_percentage,
          (calculate_detention_vs_community l).community_percentage) =
          treasuryZeroTotalPercentages) ∧
    (∀ l : List AllocEntry,
        (calculate_spending_split l).total_budget = 0 →
        ((calculate_spending_split l).detention_percentage,
          (calculate_spending_split l).community_percentage) =
          knownSplitPercentages) := by
  constructor
  · intro l h
    simp only [calculate_detention_vs_community] at h ⊢
    simp [h, treasuryZeroTotalPercentages]
  · intro l h
    simp only [calculate_spending_split] at h ⊢
    simp [h, knownSplitPercentages]

/-- C7 witness: the empty allocation list has total 0 and receives the
fallback pairs. -/
theorem zero_total_fallback_witness :
    ((calculate_detention_vs_community []).detention_percentage,
      (calculate_detention_vs_community []).community_percentage) =
      treasuryZeroTotalPercentages ∧
    ((calculate_spending_split []).detention_percentage,
      (calculate_spending_split []).community_percentage) =
      knownSplitPercentages :=
  ⟨zero_total_fallback_constants.1 []
      (by simp [calculate_detention_vs_community, detentionTotal, communityTotal]),
   zero_total_fallback_constants.2 []
      (by simp [calculate_spending_split, detentionTotal, communityTotal])⟩

/-! ## C2 — deduplicating writer -/

/-- The row the treasury writer builds carries the candidate's natural key. -/
theorem sameKey_rowOf (a : AllocDict) : sameKey (treasuryRowOf a) a = true := by
  simp [sameKey, treasuryRowOf]

/-- Key lookup distributes over store concatenation. -/
theorem hasKey_append (s t : List BudgetAllocationRow) (a : AllocDict) :
    hasKey (s ++ t) a = (hasKey s a || hasKey t a) := by
  simp [hasKey, List.any_append]

/-- A candidate whose key is absent from the store ends up with its key
present among the staged rows. -/
theorem hasKey_stage_of_mem (store : List BudgetAllocationRow) :
    ∀ (allocs : List AllocDict) (a : AllocDict), a ∈ allocs →
      hasKey store a = false → hasKey (treasuryStage store allocs) a = true := by
  intro allocs
  induction allocs with
  | nil => intro a ha _; simp at ha
  | cons b rest ih =>
      intro a ha hk
      rcases List.mem_cons.mp ha with rfl | hmem
      · have hcond : ¬ hasKey store a = true := by simp [hk]
        rw [treasuryStage, if_neg hcond, hasKey_append]
        have hone : hasKey [treasuryRowOf a] a = true := by
          simp [hasKey, sameKey_rowOf]
        simp [hone]
      · have hr := ih a hmem hk
        simp [treasuryStage, hasKey_append, hr]

/-- When every candidate's key is already stored, nothing is staged. -/
theorem stage_nil_of_keys (store : List BudgetAllocationRow) :
    ∀ allocs : List AllocDict, (∀ a ∈ allocs, hasKey store a = true) →
      treasuryStage store allocs = [] := by
  intro allocs
  induction allocs with
  | nil => intro _; rfl
  | cons b rest ih =>
      intro h
      have hb := h b (List.mem_cons_self b rest)
      simp [treasuryStage, hb, ih fun a ha => h a (List.mem_cons_of_mem b ha)]

/-- C2 (amended): the treasury writer inserts a candidate exactly when no
stored row carries its natural key `(fiscal_year, program, amount)`, and a
second identical save call changes nothing — it is idempotent.  (The plain
budget writer has no duplicate check; see the counterexample.) -/
theorem dedup_writer_insert_iff_and_idempotent :
    (∀ (store : List BudgetAllocationRow) (a : AllocDict),
        treasury_save_to_database store [a] =
          if hasKey store a then store else store ++ [treasuryRowOf a]) ∧
    (∀ (store : List BudgetAllocationRow) (allocs : List AllocDict),
        treasury_save_to_database (treasury_save_to_database store allocs)
            allocs =
          treasury_save_to_database store allocs) := by
  constructor
  · intro store a
    by_cases h : hasKey store a = true
    · simp [treasury_save_to_database, treasuryStage, h]
    · simp only [Bool.not_eq_true] at h
      simp [treasury_save_to_database, treasuryStage, h]
  · intro store allocs
    have hall : ∀ a ∈ allocs,
        hasKey (treasury_save_to_database store allocs) a = true := by
      intro a ha
      by_cases h : hasKey store a = true
      · simp [treasury_save_to_database, hasKey_append, h]
      · simp only [Bool.not_eq_true] at h
        simp [treasury_save_to_database, hasKey_append,
          hasKey_stage_of_mem store allocs a ha h]
    have h2 := stage_nil_of_keys (treasury_save_to_database store allocs)
      allocs hall
    show treasury_save_to_database store allocs ++
        treasuryStage (treasury_save_to_database store allocs) allocs =
      treasury_save_to_database store allocs
    rw [h2, List.append_nil]

/-- C2 counterexample: the budget scraper's writer inserts unconditionally,
so saving the same single candidate twice stores two rows — the second run
changes the persisted count, falsifying the claim for that cited writer. -/
theorem budget_writer_not_idempotent :
    (budget_save_to_database (budget_save_to_database [] [sampleAllocA])
        [sampleAllocA]).length = 2 ∧
    (budget_save_to_database [] [sampleAllocA]).length = 1 ∧
    (2 : Nat) ≠ 1 := by decide

/-! ## C10 — per-call atomicity of persistence -/

/-- The faulty staging loop, when it completes, stages exactly the rows of the
fault-free loop. -/
theorem stageFaulty_eq (store : List BudgetAllocationRow) (qf : Nat → Bool) :
    ∀ (allocs : List AllocDict) (i : Nat) (st : List BudgetAllocationRow),
      treasuryStageFaulty store qf allocs i = some st →
      st = treasuryStage store allocs := by
  intro allocs
  induction allocs with
  | nil =>
      intro i st h
      simp [treasuryStageFaulty] at h
      simp [treasuryStage, h.symm]
  | cons a rest ih =>
      intro i st h
      by_cases hq : qf i = true
      · simp [treasuryStageFaulty, hq] at h
      · simp only [treasuryStageFaulty, hq, Bool.false_eq_true, if_false] at h
        cases hrec : treasuryStageFaulty store qf rest (i + 1) with
        | none => rw [hrec] at h; simp at h
        | some tail =>
            rw [hrec] at h
            simp only [Option.some.injEq] at h
            rw [← h, treasuryStage, ih (i + 1) tail hrec]

/-- C10 (amended): the SQLAlchemy persistence of both writers is atomic per
call — under any pattern of raising queries, adds or commits, the store is
either unchanged (rollback) or extended by exactly the fault-free batch. -/
theorem sqlalchemy_batch_atomic :
    (∀ (store : List BudgetAllocationRow) (allocs : List AllocDict)
        (qf : Nat → Bool) (cf : Bool),
        treasury_save_faulty store allocs qf cf = store ∨
        treasury_save_faulty store allocs qf cf =
          treasury_save_to_database store allocs) ∧
    (∀ (store : List BudgetAllocationRow) (allocs : List AllocDict)
        (af : Nat → Bool) (cf : Bool),
        budget_save_faulty store allocs af cf = store ∨
        budget_save_faulty store allocs af cf =
          budget_save_to_database store allocs) := by
  constructor
  · intro store allocs qf cf
    unfold treasury_save_faulty
    cases hrec : treasuryStageFaulty store qf allocs 0 with
    | none => left; rfl
    | some staged =>
        cases cf with
        | true => left; rfl
        | false =>
            right
            rw [stageFaulty_eq store qf allocs 0 staged hrec]
            rfl
  · intro store allocs af cf
    unfold budget_save_faulty
    by_cases h : ((List.range allocs.length).any af || cf) = true
    · left; simp [h]
    · right; simp only [Bool.not_eq_true] at h; simp [h, budget_save_to_database]

/-- C10 counterexample: the Supabase leg of the budget writer inserts row by
row; a failure on the second insert leaves the first row durable — a partial
batch that is neither the unchanged store nor the full batch. -/
theorem supabase_leg_partial_batch :
    supabase_save (fun i => decide (i = 1)) [] [sampleAllocA, sampleAllocB] 0 =
      [sampleAllocA] ∧
    ([sampleAllocA] : List AllocDict) ≠ [] ∧
    ([sampleAllocA] : List AllocDict) ≠ [sampleAllocA, sampleAllocB] := by
  decide

/-! ## Scanner lemmas -/

/-- A character of a matched needle occurs in the haystack it starts. -/
theorem startsWithL_subset :
    ∀ (n h : List Char), startsWithL n h = true → ∀ c ∈ n, c ∈ h := by
  intro n
  induction n with
  | nil => intro h _ c hc; simp at hc
  | cons a as ih =>
      intro h hs c hc
      cases h with
      | nil => simp [startsWithL] at hs
      | cons b bs =>
          simp only [startsWithL, Bool.and_eq_true, decide_eq_true_eq] at hs
          rcases List.mem_cons.mp hc with rfl | hc2
          · rw [hs.1]; exact List.mem_cons_self _ _
          · exact List.mem_cons_of_mem _ (ih bs hs.2 c hc2)

/-- A character of a substring occurs in the containing string. -/
theorem containsL_subset :
    ∀ (h n : List Char), containsL n h = true → ∀ c ∈ n, c ∈ h := by
  intro h
  induction h with
  | nil =>
      intro n hc c hcn
      simp only [containsL, List.isEmpty_iff] at hc
      subst hc; simp at hcn
  | cons b bs ih =>
      intro n hc c hcn
      simp only [containsL, Bool.or_eq_true] at hc
      rcases hc with hs | hct
      · exact startsWithL_subset n (b :: bs) hs c hcn
      · exact List.mem_cons_of_mem _ (ih n hct c hcn)

/-- A needle containing a non-digit character is not a substring of an
all-digit string. -/
theorem pySubstr_false_of_digits (v : String)
    (hdig : ∀ c ∈ v.toList, c.isDigit = true) (w : String) (c : Char)
    (hcw : c ∈ w.toList) (hcd : c.isDigit = false) : pySubstr w v = false := by
  cases hb : pySubstr w v with
  | false => rfl
  | true =>
      exfalso
      have hmem := containsL_subset v.toList w.toList hb c hcw
      rw [hdig c hmem] at hcd
      simp at hcd

/-- The number pattern captures an all-digit fragment whole. -/
theorem matchNum_digits (ds : List Char) (hne : ds ≠ [])
    (hdig : ∀ c ∈ ds, c.isDigit = true) : matchNum ds = some (ds, []) := by
  have ht : ds.takeWhile isNumC = ds := by
    rw [List.takeWhile_eq_self_iff]
    intro x hx
    simp [isNumC, hdig x hx]
  have hd : ds.dropWhile isNumC = [] := by
    rw [List.dropWhile_eq_nil_iff]
    intro x hx
    simp [isNumC, hdig x hx]
  have hemp : ds.isEmpty = false := by
    cases ds with
    | nil => exact absurd rfl hne
    | cons d rest => rfl
  simp only [matchNum, ht, hd, hemp, Bool.false_eq_true, if_false]

/-- The full budget-scraper pattern matches an all-digit fragment whole, with
no magnitude word. -/
theorem matchTokenA_digits (ds : List Char) (hne : ds ≠ [])
    (hdig : ∀ c ∈ ds, c.isDigit = true) :
    matchTokenA ds = some (ds, MagA.absent, []) := by
  have hmn := matchNum_digits ds hne hdig
  unfold matchTokenA
  split
  · rename_i rest
    exfalso
    have := hdig '$' (List.mem_cons_self _ _)
    simp at this
  · simp [hmn, munchMagA, startsWithL, List.dropWhile]

/-- `re.search` on an all-digit fragment captures the whole fragment. -/
theorem searchA_digits (ds : List Char) (hne : ds ≠ [])
    (hdig : ∀ c ∈ ds, c.isDigit = true) : searchA ds = some ds := by
  cases ds with
  | nil => exact absurd rfl hne
  | cons d rest =>
      have := matchTokenA_digits (d :: rest) hne hdig
      simp only [searchA, this]

/-- The mantissa of an all-digit capture is its decimal value. -/
theorem mantissaParts_digits (ds : List Char) (hne : ds ≠ [])
    (hdig : ∀ c ∈ ds, c.isDigit = true) :
    mantissaParts ds = some (digitsToNat ds, 0) := by
  have hfilter : ds.filter (fun c => c ≠ ',') = ds := by
    rw [List.filter_eq_self]
    intro a ha
    simp only [decide_eq_true_eq]
    intro hc
    have := hdig a ha
    rw [hc] at this
    simp at this
  have ht : ds.takeWhile Char.isDigit = ds :=
    List.takeWhile_eq_self_iff.mpr hdig
  have hd : ds.dropWhile Char.isDigit = [] :=
    List.dropWhile_eq_nil_iff.mpr hdig
  have hemp : ds.isEmpty = false := by
    cases ds with
    | nil => exact absurd rfl hne
    | cons d rest => rfl
  simp only [mantissaParts, hfilter, ht, hd, hemp, Bool.false_eq_true, if_false]

/-- An all-digit string has none of the four magnitude substrings, so the
budget scraper's multiplier is 1 on it. -/
theorem budgetFragMult_digits (v : String)
    (hdig : ∀ c ∈ v.toList, c.isDigit = true) (hl : pyLower v = v) :
    budgetFragMult v = FragMult.one := by
  have h1 : pySubstr "million" v = false :=
    pySubstr_false_of_digits v hdig "million" 'm' (by decide) (by decide)
  have h2 : pySubstr "m" v = false :=
    pySubstr_false_of_digits v hdig "m" 'm' (by decide) (by decide)
  have h3 : pySubstr "thousand" v = false :=
    pySubstr_false_of_digits v hdig "thousand" 't' (by decide) (by decide)
  have h4 : pySubstr "k" v = false :=
    pySubstr_false_of_digits v hdig "k" 'k' (by decide) (by decide)
  simp [budgetFragMult, hl, h1, h2, h3, h4]

/-! ## One-token evaluation helpers -/

/-- Evaluation of the budget extractor on a single cell whose first capture
parses. -/
theorem budget_first_token_eval (v : String) (g : List Char) (p : Nat × Nat)
    (h1 : searchA v.toList = some g) (h2 : mantissaParts g = some p) :
    extract_amount [v] =
      Except.ok (some (ratOfParts p * fragMultVal (budgetFragMult v))) := by
  simp only [extract_amount, h1, h2]

/-- Evaluation of the treasury extractor on a fragment with exactly one
capture. -/
theorem treasury_one_token_eval (s : String) (g : List Char) (mg : MagA)
    (p : Nat × Nat) (ht : tokensA s = [(g, mg)])
    (hp : mantissaParts g = some p) :
    extract_allocation_amount s =
      Except.ok (some (ratOfParts p * fragMultVal (treasuryFragMult s))) := by
  simp only [extract_allocation_amount, ht, List.map_cons, List.map_nil,
    mantissaPartsAll, hp, List.foldl_nil]

/-- Evaluation of the statistic dollar scan on a text with exactly one
capture. -/
theorem stat_one_token_eval (s : String) (g : List Char) (mg : MagB)
    (p : Nat × Nat) (ht : tokensB s = [(g, mg)])
    (hp : mantissaParts g = some p) :
    statAmountValues s = Except.ok [ratOfParts p * magMultB mg] := by
  simp only [statAmountValues, ht, statAmountLoop, hp]

/-! ## C3 — magnitude words and multipliers -/

/-- C3 counterexample: in `mentoring 450` the capture is `450` and no
magnitude word follows it, yet `_extract_amount` multiplies by 10^6 because
the letter `m` occurs (in `mentoring`) somewhere in the value; the claim's
predicted result 450 is wrong on the code. -/
theorem magnitude_anywhere_counterexample :
    tokensA "mentoring 450" = [("450".toList, MagA.absent)] ∧
    extract_amount ["mentoring 450"] = Except.ok (some 450000000) ∧
    ((450000000 : ℚ)) ≠ 450 := by
  refine ⟨by decide, ?_, by norm_num⟩
  rw [budget_first_token_eval "mentoring 450" "450".toList (450, 0)
      (by decide) (by decide),
    show budgetFragMult "mentoring 450" = FragMult.million from by decide]
  norm_num [ratOfParts, fragMultVal]

/-- C3 (amended): both normalizers scale the parsed mantissa by a multiplier
decided by substring presence anywhere in the fragment (`million` or `m`
gives 10^6, else `thousand` or `k` gives 10^3, else 1) — not by the word
following the token; a purely numeric fragment therefore keeps multiplier 1,
and the spec's anchor values `normalize("$1.65 million") = 1650000` and
`normalize("450") = 450` hold for both normalizers. -/
theorem substring_multiplier_normalization :
    (∀ (v : String) (g : List Char) (p : Nat × Nat),
        searchA v.toList = some g → mantissaParts g = some p →
        extract_amount [v] =
          Except.ok (some (ratOfParts p * fragMultVal (budgetFragMult v)))) ∧
    (∀ v : String, v.toList ≠ [] → (∀ c ∈ v.toList, c.isDigit = true) →
        pyLower v = v →
        extract_amount [v] = Except.ok (some ((digitsToNat v.toList : ℚ)))) ∧
    extract_amount ["$1.65 million"] = Except.ok (some 1650000) ∧
    extract_amount ["450"] = Except.ok (some 450) ∧
    extract_allocation_amount "$1.65 million" = Except.ok (some 1650000) ∧
    extract_allocation_amount "450" = Except.ok (some 450) := by
  refine ⟨budget_first_token_eval, ?_, ?_, ?_, ?_, ?_⟩
  · intro v hne hdig hl
    rw [budget_first_token_eval v v.toList (digitsToNat v.toList, 0)
        (searchA_digits v.toList hne hdig)
        (mantissaParts_digits v.toList hne hdig),
      budgetFragMult_digits v hdig hl]
    norm_num [ratOfParts, fragMultVal]
  · rw [budget_first_token_eval "$1.65 million" "1.65".toList (165, 2)
        (by decide) (by decide),
      show budgetFragMult "$1.65 million" = FragMult.million from by decide]
    norm_num [ratOfParts, fragMultVal]
  · rw [budget_first_token_eval "450" "450".toList (450, 0)
        (by decide) (by decide),
      show budgetFragMult "450" = FragMult.one from by decide]
    norm_num [ratOfParts, fragMultVal]
  · rw [treasury_one_token_eval "$1.65 million" "1.65".toList MagA.million
        (165, 2) (by decide) (by decide),
      show treasuryFragMult "$1.65 million" = FragMult.million from by decide]
    norm_num [ratOfParts, fragMultVal]
  · rw [treasury_one_token_eval "450" "450".toList MagA.absent (450, 0)
        (by decide) (by decide),
      show treasuryFragMult "450" = FragMult.one from by decide]
    norm_num [ratOfParts, fragMultVal]

/-- C3 witness: the all-digit fragment `777` normalizes to 777 through the
amended theorem. -/
theorem substring_multiplier_normalization_witness :
    extract_amount ["777"] = Except.ok (some 777) := by
  have h := substring_multiplier_normalization.2.1 "777" (by decide)
    (by decide) (by decide)
  rw [h]
  norm_num [show digitsToNat ['7', '7', '7'] = 777 from by decide]

/-! ## C5 — multiple numeric tokens in one fragment -/

/-- Every fragment-level multiplier is positive. -/
theorem fragMultVal_pos (f : FragMult) : 0 < fragMultVal f := by
  cases f <;> norm_num [fragMultVal]

/-- Folding `max` commutes with scaling by a nonnegative factor. -/
theorem foldl_max_mul (M : ℚ) (hM : 0 ≤ M) :
    ∀ (xs : List ℚ) (x : ℚ),
      (xs.map fun y => y * M).foldl max (x * M) = xs.foldl max x * M := by
  intro xs
  induction xs with
  | nil => intro x; rfl
  | cons y ys ih =>
      intro x
      simp only [List.map_cons, List.foldl_cons]
      rw [← max_mul_of_nonneg x y hM]
      exact ih (max x y)

/-- When the spec-side per-token values of a token list all exist, the
source-side parses all exist too and the value lists correspond token by
token under a uniform magnitude. -/
theorem specLoop_parts (M : ℚ) :
    ∀ (l : List (List Char × MagA)) (vals : List ℚ),
      (∀ p ∈ l, magMultA p.2 = M) →
      specNormalizedLoop l = some vals →
      ∃ ps, mantissaPartsAll (l.map Prod.fst) = some ps ∧
        vals = ps.map fun pr => ratOfParts pr * M := by
  intro l
  induction l with
  | nil =>
      intro vals _ h
      simp only [specNormalizedLoop, Option.some.injEq] at h
      exact ⟨[], by simp [mantissaPartsAll], by simp [h.symm]⟩
  | cons gm rest ih =>
      intro vals hmag h
      obtain ⟨g, mag⟩ := gm
      simp only [specNormalizedLoop] at h
      cases hp : mantissaParts g with
      | none => rw [hp] at h; simp at h
      | some p =>
          rw [hp] at h
          cases hrec : specNormalizedLoop rest with
          | none => rw [hrec] at h; simp at h
          | some vs =>
              rw [hrec] at h
              simp only [Option.some.injEq] at h
              obtain ⟨ps, hps, hvals⟩ :=
                ih vs (fun q hq => hmag q (List.mem_cons_of_mem _ hq)) hrec
              refine ⟨p :: ps, ?_, ?_⟩
              · simp [mantissaPartsAll, List.map_cons, hp, hps]
              · have hm := hmag (g, mag) (List.mem_cons_self _ _)
                rw [← h, hvals, List.map_cons, hm]

/-- C5 (amended): the treasury normalizer takes the maximum of the raw
mantissas and then applies one fragment-level multiplier; whenever every
token's own magnitude agrees with that fragment multiplier, this equals the
spec's largest per-token normalized value.  (With mixed magnitudes the two
differ; see the counterexample.) -/
theorem uniform_magnitude_agreement :
    ∀ (s : String) (vals : List ℚ),
      specNormalizedValues s = some vals →
      (∀ p ∈ tokensA s, magMultA p.2 = fragMultVal (treasuryFragMult s)) →
      extract_allocation_amount s = Except.ok (specLargestNormalized s) := by
  intro s vals hvals hmag
  obtain ⟨ps, hps, hv⟩ := specLoop_parts (fragMultVal (treasuryFragMult s))
    (tokensA s) vals hmag hvals
  subst hv
  unfold extract_allocation_amount specLargestNormalized
  rw [hps, hvals]
  cases ps with
  | nil => rfl
  | cons p pr =>
      simp only [List.map_cons]
      rw [show (pr.map fun pr' => ratOfParts pr' * fragMultVal (treasuryFragMult s)) =
          ((pr.map ratOfParts).map fun y => y * fragMultVal (treasuryFragMult s)) from by
        rw [List.map_map]; rfl,
        foldl_max_mul (fragMultVal (treasuryFragMult s))
          (le_of_lt (fragMultVal_pos _)) (pr.map ratOfParts) (ratOfParts p)]

/-- C5 witness: in `3 million and 2 million` both tokens carry the `million`
magnitude, which is also the fragment multiplier, so the source amount equals
the spec-side largest normalized value. -/
theorem uniform_magnitude_agreement_witness :
    extract_allocation_amount "3 million and 2 million" =
      Except.ok (specLargestNormalized "3 million and 2 million") := by
  have ht : tokensA "3 million and 2 million" =
      [("3".toList, MagA.million), ("2".toList, MagA.million)] := by decide
  have hvals : specNormalizedValues "3 million and 2 million" =
      some [ratOfParts (3, 0) * magMultA MagA.million,
        ratOfParts (2, 0) * magMultA MagA.million] := by
    simp only [specNormalizedValues]
    rw [ht]
    simp only [specNormalizedLoop,
      show mantissaParts "3".toList = some (3, 0) from by decide,
      show mantissaParts "2".toList = some (2, 0) from by decide]
  refine uniform_magnitude_agreement _ _ hvals ?_
  rw [ht, show treasuryFragMult "3 million and 2 million" = FragMult.million
    from by decide]
  intro q hq
  rcases List.mem_cons.mp hq with rfl | hq2
  · rfl
  · rcases List.mem_cons.mp hq2 with rfl | hq3
    · rfl
    · simp at hq3

/-- C5 counterexample: `2.5 million plus 1000` has tokens `2.5` (followed by
`million`) and `1000` (no magnitude); the code takes the larger raw mantissa
1000 and multiplies the whole fragment by 10^6, returning 10^9, while the
largest per-token normalized value is 2.5 * 10^6. -/
theorem raw_mantissa_max_counterexample :
    extract_allocation_amount "2.5 million plus 1000" =
      Except.ok (some 1000000000) ∧
    specLargestNormalized "2.5 million plus 1000" = some 2500000 ∧
    ((1000000000 : ℚ)) ≠ 2500000 := by
  have ht : tokensA "2.5 million plus 1000" =
      [("2.5".toList, MagA.million), ("1000".toList, MagA.absent)] := by decide
  have hp1 : mantissaParts "2.5".toList = some (25, 1) := by decide
  have hp2 : mantissaParts "1000".toList = some (1000, 0) := by decide
  refine ⟨?_, ?_, by norm_num⟩
  · simp only [extract_allocation_amount]
    rw [ht]
    simp only [List.map_cons, List.map_nil, mantissaPartsAll, hp1, hp2]
    rw [show treasuryFragMult "2.5 million plus 1000" = FragMult.million
      from by decide]
    norm_num [ratOfParts, fragMultVal, max_def, List.foldl_cons,
      List.foldl_nil, List.map_cons, List.map_nil]
  · simp only [specLargestNormalized, specNormalizedValues]
    rw [ht]
    simp only [specNormalizedLoop, hp1, hp2]
    norm_num [ratOfParts, magMultA, max_def, List.foldl_cons, List.foldl_nil]

/-! ## C8 — fragments without a parseable numeric token -/

/-- C8: when the amount pattern finds no capture at all the treasury extractor
returns `None` and the candidate is dropped; but a fragment whose only capture
is a bare comma — which contains no parseable numeric token — makes
`float('')` raise `ValueError` in both normalizers instead of reporting
found = false: the row text `community youth justice, pending` raises. -/
theorem no_token_drops_but_comma_capture_raises :
    (∀ s : String, tokensA s = [] →
        extract_allocation_amount s = Except.ok none) ∧
    extract_amount ["community youth justice, pending"] = Except.error () ∧
    extract_allocation_amount "community youth justice, pending" =
      Except.error () := by
  refine ⟨?_, ?_, ?_⟩
  · intro s h
    simp only [extract_allocation_amount]
    rw [h]
    rfl
  · have h1 : searchA "community youth justice, pending".toList =
        some [','] := by decide
    have h2 : mantissaParts [','] = none := by decide
    simp only [extract_amount, h1, h2]
  · have ht : tokensA "community youth justice, pending" =
        [([','], MagA.absent)] := by decide
    have h2 : mantissaParts [','] = none := by decide
    simp only [extract_allocation_amount]
    rw [ht]
    simp only [List.map_cons, List.map_nil, mantissaPartsAll, h2]

/-- C8 witness: a fragment with no digits and no comma yields no capture and
the extractor returns `None`. -/
theorem no_token_drops_witness :
    extract_allocation_amount "no numbers here" = Except.ok none :=
  no_token_drops_but_comma_capture_raises.1 "no numbers here" (by decide)

/-! ## C9 — statistic dollar scan versus allocation normalizer -/

/-- C9 counterexample: on `$2 m` the statistic scan takes only the three full
magnitude words, so it reports 2, while the allocation normalizer's
fragment-level test sees the substring ` m` and reports 2000000 — the two
procedures are not extensionally equal on currency tokens. -/
theorem dollar_scan_divergence :
    statAmountValues "$2 m" = Except.ok [2] ∧
    extract_allocation_amount "$2 m" = Except.ok (some 2000000) ∧
    ((2 : ℚ)) ≠ 2000000 := by
  refine ⟨?_, ?_, by norm_num⟩
  · rw [stat_one_token_eval "$2 m" "2".toList MagB.absent (2, 0)
        (by decide) (by decide)]
    norm_num [ratOfParts, magMultB]
  · rw [treasury_one_token_eval "$2 m" "2".toList MagA.m (2, 0)
        (by decide) (by decide),
      show treasuryFragMult "$2 m" = FragMult.million from by decide]
    norm_num [ratOfParts, fragMultVal]

/-- C9 (amended): the two normalization procedures agree on the canonical
currency fragments whose magnitude is absent or the full word `million`
immediately after the sole token — both give 1650000 on `$1.65 million` and
450 on `$450` — though not on abbreviated or `billion` magnitudes. -/
theorem dollar_scan_agreement_on_anchors :
    statAmountValues "$1.65 million" = Except.ok [1650000] ∧
    extract_allocation_amount "$1.65 million" = Except.ok (some 1650000) ∧
    statAmountValues "$450" = Except.ok [450] ∧
    extract_allocation_amount "$450" = Except.ok (some 450) := by
  refine ⟨?_, ?_, ?_, ?_⟩
  · rw [stat_one_token_eval "$1.65 million" "1.65".toList MagB.million
        (165, 2) (by decide) (by decide)]
    norm_num [ratOfParts, magMultB]
  · rw [treasury_one_token_eval "$1.65 million" "1.65".toList MagA.million
        (165, 2) (by decide) (by decide),
      show treasuryFragMult "$1.65 million" = FragMult.million from by decide]
    norm_num [ratOfParts, fragMultVal]
  · rw [stat_one_token_eval "$450" "450".toList MagB.absent (450, 0)
        (by decide) (by decide)]
    norm_num [ratOfParts, magMultB]
  · rw [treasury_one_token_eval "$450" "450".toList MagA.absent (450, 0)
        (by decide) (by decide),
      show treasuryFragMult "$450" = FragMult.one from by decide]
    norm_num [ratOfParts, fragMultVal]
